import Mathlib

/-!
Shallow embedding of the viewing-history application (src/main.js).

The program keeps a single SQLite table `ViewingHistory`; we model the table
as a `List ViewingRecord` in insertion (rowid) order.  The SQL query
`SELECT * FROM ViewingHistory ORDER BY recorded_at DESC` is modelled by an
insertion sort on the `recorded_at` field.  `recorded_at` is produced by
`new Date().toISOString()`; ISO-8601 timestamps of this fixed width compare
lexicographically exactly in chronological order, so the timestamp is
modelled as a `Nat` (milliseconds since the epoch) and the wall clock is
passed to `recordViewingHistory` as an explicit `now` argument.

JavaScript-specific behaviour is modelled explicitly: a destructured field
that may be `undefined`/`null` becomes an `Option`, and the truthiness tests
(`!mediaTitle`, `rating ? … : …`, `notes && notes.trim()`) become the
corresponding `js…Truthy` functions (for a JS string only `""` is falsy; for
a JS number only `0` is falsy among the values reachable here).
-/

/-- One row of the `ViewingHistory` table (src/main.js, CREATE TABLE). -/
structure ViewingRecord where
  media_title : String
  start_date : String
  end_date : String
  rating : Option Int
  notes : Option String
  recorded_at : Nat
  tags : Option String
deriving DecidableEq

/-- The candidate fields destructured from the `record-history` IPC payload:
`const { mediaTitle, startDate, endDate, rating, notes, tags } = data`.
A field absent from the payload is `none`. -/
structure RecordInput where
  mediaTitle : Option String
  startDate : Option String
  endDate : Option String
  rating : Option Int
  notes : Option String
  tags : Option String
deriving DecidableEq

/-- The `{success, message}` object resolved by the `record-history` handler. -/
structure RecordResult where
  success : Bool
  message : String
deriving DecidableEq

/-- JS truthiness of a possibly-absent string: `undefined`, `null` and `""`
are falsy, every other string is truthy. -/
def jsStrTruthy : Option String → Bool
  | none => false
  | some s => s ≠ ""

/-- JS truthiness of a possibly-absent integer: `undefined`, `null` and `0`
are falsy. -/
def jsIntTruthy : Option Int → Bool
  | none => false
  | some r => r ≠ 0

/-- JS whitespace as used by `String.prototype.trim` and the regex class
`\s` (the ASCII white-space characters plus NBSP and the BOM; the more
exotic Unicode space separators do not occur in this development). -/
def isJsWs (c : Char) : Bool :=
  c = ' ' || c = '\t' || c = '\n' || c = '\r' || c = '\x0b' || c = '\x0c' ||
  c = Char.ofNat 0xa0 || c = Char.ofNat 0xfeff

/-- Character-list version of JS `String.prototype.trim`. -/
def trimChars (cs : List Char) : List Char :=
  ((cs.dropWhile isJsWs).reverse.dropWhile isJsWs).reverse

/-- JS `s.trim()`. -/
def jsTrim (s : String) : String :=
  String.mk (trimChars s.data)

/-- The row inserted by `recordViewingHistory` on the valid path: the six
destructured fields verbatim plus the store-assigned `recorded_at`. -/
def insertedRow (data : RecordInput) (now : Nat) : ViewingRecord :=
  { media_title := data.mediaTitle.getD ""
    start_date := data.startDate.getD ""
    end_date := data.endDate.getD ""
    rating := data.rating
    notes := data.notes
    recorded_at := now
    tags := data.tags }

/-- `recordViewingHistory` (src/main.js lines 75–91).  The validation
`if (!mediaTitle || !startDate || !endDate)` returns the structured failure
without touching the store; otherwise one row is appended (SQL `INSERT`)
with `recorded_at` assigned from the clock, and the success message quotes
the stored title. -/
def recordViewingHistory (data : RecordInput) (now : Nat)
    (store : List ViewingRecord) : RecordResult × List ViewingRecord :=
  if !jsStrTruthy data.mediaTitle || !jsStrTruthy data.startDate
      || !jsStrTruthy data.endDate then
    ({ success := false
       message := "エラー: 作品名、開始日、終了日は必須項目です。" }, store)
  else
    ({ success := true
       message := "視聴履歴を記録しました: \x27"
         ++ data.mediaTitle.getD "" ++ "\x27" },
     store ++ [insertedRow data now])

/-- Comparison used by `ORDER BY recorded_at DESC`: `a` may come before `b`
when `a`'s timestamp is the larger one. -/
def recGe (a b : ViewingRecord) : Prop :=
  b.recorded_at ≤ a.recorded_at

instance : DecidableRel recGe :=
  fun a b => Nat.decLe b.recorded_at a.recorded_at

instance : IsTotal ViewingRecord recGe :=
  ⟨fun a b => (Nat.le_total b.recorded_at a.recorded_at).elim Or.inl Or.inr⟩

instance : IsTrans ViewingRecord recGe :=
  ⟨fun _ _ _ hab hbc => Nat.le_trans hbc hab⟩

/-- The rows as returned by `SELECT * FROM ViewingHistory ORDER BY
recorded_at DESC`. -/
def sortDesc (store : List ViewingRecord) : List ViewingRecord :=
  List.insertionSort recGe store

/-- One line of the `listAll` output (src/main.js lines 103–107): the
mandatory `・start ~ end: title` part followed by the three optional
suffixes, each guarded by the JS truthiness test the code uses
(`rating ? …`, `notes && notes.trim()`, `tags && tags.trim()`). -/
def formatRow (row : ViewingRecord) : String :=
  let rating_str :=
    if jsIntTruthy row.rating then
      " (評価:" ++ toString (row.rating.getD 0) ++ ")"
    else ""
  let notes_str :=
    match row.notes with
    | some n => if n ≠ "" ∧ jsTrim n ≠ "" then " [メモ: " ++ n ++ "]" else ""
    | none => ""
  let tags_str :=
    match row.tags with
    | some t => if t ≠ "" ∧ jsTrim t ≠ "" then " [タグ: " ++ t ++ "]" else ""
    | none => ""
  "・" ++ row.start_date ++ " ~ " ++ row.end_date ++ ": " ++ row.media_title
    ++ rating_str ++ notes_str ++ tags_str

/-- The `rows.forEach(row => displayText += …)` loop: one line per row, in
the order the query returned them. -/
def linesOf : List ViewingRecord → String
  | [] => ""
  | row :: rest => (formatRow row ++ "\n") ++ linesOf rest

/-- `getAllViewingHistory` (src/main.js lines 93–110): the sorted rows are
rendered one per line under a fixed header, and an empty result set yields
the fixed "no history yet" message instead. -/
def getAllViewingHistory (store : List ViewingRecord) : String :=
  let rows := sortDesc store
  if rows.length = 0 then "まだ視聴履歴がありません。"
  else "--- 視聴履歴一覧 ---\n" ++ linesOf rows

/-!
The enrichment client (`searchMediaWithGemini`, src/main.js lines 113–140).

The external service call is abstracted as a `ServiceOutcome`: either the
reply text produced by `response.text()`, or a thrown transport/auth error
carrying `error.message`.  Everything after the call — fence stripping,
`JSON.parse`, property access and rendering — is embedded directly.

`JSON.parse` is embedded as `jsonParse` below, a fuelled recursive-descent
parser of the JSON grammar.  One simplification: a numeric literal may
carry a fraction and an exponent (so the set of strings that parse is the
right one), but its value is modelled by its signed integer part; none of
the claims depend on the value of a non-integer number.
-/

/-- The result of the awaited external call. -/
inductive ServiceOutcome where
  | reply (text : String)
  | failure (errMessage : String)

/-- A parsed JSON value.  Object fields are kept in textual order. -/
inductive JsonValue where
  | null
  | bool (b : Bool)
  | num (n : Int)
  | str (s : String)
  | arr (elems : List JsonValue)
  | obj (fields : List (String × JsonValue))

/-- JSON whitespace accepted by `JSON.parse` between tokens. -/
def isJsonWs (c : Char) : Bool :=
  c = ' ' || c = '\t' || c = '\n' || c = '\r'

/-- Skip JSON inter-token whitespace. -/
def skipJsonWs (cs : List Char) : List Char :=
  cs.dropWhile isJsonWs

/-- Hexadecimal digit value, for `\uXXXX` escapes. -/
def hexVal (c : Char) : Option Nat :=
  if '0' ≤ c ∧ c ≤ '9' then some (c.toNat - '0'.toNat)
  else if 'a' ≤ c ∧ c ≤ 'f' then some (c.toNat - 'a'.toNat + 10)
  else if 'A' ≤ c ∧ c ≤ 'F' then some (c.toNat - 'A'.toNat + 10)
  else none

/-- Body of a JSON string literal, after the opening quote: ordinary
characters, the short escapes and `\uXXXX`; an unescaped control character
or a bad escape is a parse error. -/
def parseStringBody (acc : List Char) : List Char → Option (String × List Char)
  | [] => none
  | c :: rest =>
    if c = '"' then some (String.mk acc.reverse, rest)
    else if c = '\\' then
      match rest with
      | [] => none
      | e :: rest2 =>
        if e = '"' then parseStringBody ('"' :: acc) rest2
        else if e = '\\' then parseStringBody ('\\' :: acc) rest2
        else if e = '/' then parseStringBody ('/' :: acc) rest2
        else if e = 'b' then parseStringBody ('\x08' :: acc) rest2
        else if e = 'f' then parseStringBody ('\x0c' :: acc) rest2
        else if e = 'n' then parseStringBody ('\n' :: acc) rest2
        else if e = 'r' then parseStringBody ('\r' :: acc) rest2
        else if e = 't' then parseStringBody ('\t' :: acc) rest2
        else if e = 'u' then
          match rest2 with
          | h1 :: h2 :: h3 :: h4 :: rest3 =>
            match hexVal h1, hexVal h2, hexVal h3, hexVal h4 with
            | some v1, some v2, some v3, some v4 =>
              parseStringBody
                (Char.ofNat (((v1 * 16 + v2) * 16 + v3) * 16 + v4) :: acc) rest3
            | _, _, _, _ => none
          | _ => none
        else none
    else if c.toNat < 0x20 then none
    else parseStringBody (c :: acc) rest

/-- Consume a run of decimal digits, returning their value and count. -/
def parseDigitRun (acc : Nat) (count : Nat) :
    List Char → Nat × Nat × List Char
  | [] => (acc, count, [])
  | c :: rest =>
    if '0' ≤ c ∧ c ≤ '9' then
      parseDigitRun (acc * 10 + (c.toNat - '0'.toNat)) (count + 1) rest
    else (acc, count, c :: rest)

/-- A JSON numeric literal: `-? (0 | [1-9][0-9]*) frac? exp?`.  The fraction
and exponent are consumed for syntax but, as noted above, the value kept is
the signed integer part. -/
def parseNumber (cs : List Char) : Option (JsonValue × List Char) :=
  let (neg, cs1) :=
    match cs with
    | '-' :: rest => (true, rest)
    | _ => (false, cs)
  let intPart :=
    match cs1 with
    | c :: rest =>
      if c = '0' then some ((0 : Nat), rest)
      else if '1' ≤ c ∧ c ≤ '9' then
        let (v, _, rest2) := parseDigitRun (c.toNat - '0'.toNat) 1 rest
        some (v, rest2)
      else none
    | [] => none
  intPart.bind fun (intVal, cs2) =>
    let afterFrac :=
      match cs2 with
      | '.' :: rest =>
        let (_, count, rest2) := parseDigitRun 0 0 rest
        if count = 0 then none else some rest2
      | _ => some cs2
    afterFrac.bind fun cs3 =>
      let afterExp :=
        match cs3 with
        | e :: rest =>
          if e = 'e' ∨ e = 'E' then
            let rest2 :=
              match rest with
              | s :: rest3 => if s = '+' ∨ s = '-' then rest3 else rest
              | [] => rest
            let (_, count, rest3) := parseDigitRun 0 0 rest2
            if count = 0 then none else some rest3
          else some (e :: rest)
        | [] => some []
      afterExp.map fun cs4 =>
        (JsonValue.num (if neg then -(intVal : Int) else (intVal : Int)), cs4)

mutual

/-- A JSON value: leading whitespace, then an object, array, string,
keyword or number.  `fuel` only serves termination; `jsonParse` supplies
enough for any input. -/
def parseValue : Nat → List Char → Option (JsonValue × List Char)
  | 0, _ => none
  | fuel + 1, cs =>
    match skipJsonWs cs with
    | '{' :: rest =>
      (match skipJsonWs rest with
       | '}' :: rest2 => some (JsonValue.obj [], rest2)
       | _ =>
         match parseMembers fuel rest [] with
         | some (fields, rest2) => some (JsonValue.obj fields, rest2)
         | none => none)
    | '[' :: rest =>
      (match skipJsonWs rest with
       | ']' :: rest2 => some (JsonValue.arr [], rest2)
       | _ =>
         match parseElems fuel rest [] with
         | some (elems, rest2) => some (JsonValue.arr elems, rest2)
         | none => none)
    | '"' :: rest =>
      (match parseStringBody [] rest with
       | some (s, rest2) => some (JsonValue.str s, rest2)
       | none => none)
    | 't' :: 'r' :: 'u' :: 'e' :: rest => some (JsonValue.bool true, rest)
    | 'f' :: 'a' :: 'l' :: 's' :: 'e' :: rest => some (JsonValue.bool false, rest)
    | 'n' :: 'u' :: 'l' :: 'l' :: rest => some (JsonValue.null, rest)
    | other => parseNumber other

/-- The members of a non-empty JSON object, after the opening brace. -/
def parseMembers (fuel : Nat) (cs : List Char)
    (acc : List (String × JsonValue)) :
    Option (List (String × JsonValue) × List Char) :=
  match fuel with
  | 0 => none
  | fuel + 1 =>
    match skipJsonWs cs with
    | '"' :: rest =>
      (match parseStringBody [] rest with
       | none => none
       | some (key, rest2) =>
         match skipJsonWs rest2 with
         | ':' :: rest3 =>
           (match parseValue fuel rest3 with
            | none => none
            | some (v, rest4) =>
              match skipJsonWs rest4 with
              | ',' :: rest5 => parseMembers fuel rest5 (acc ++ [(key, v)])
              | '}' :: rest5 => some (acc ++ [(key, v)], rest5)
              | _ => none)
         | _ => none)
    | _ => none

/-- The elements of a non-empty JSON array, after the opening bracket. -/
def parseElems (fuel : Nat) (cs : List Char) (acc : List JsonValue) :
    Option (List JsonValue × List Char) :=
  match fuel with
  | 0 => none
  | fuel + 1 =>
    match parseValue fuel cs with
    | none => none
    | some (v, rest) =>
      match skipJsonWs rest with
      | ',' :: rest2 => parseElems fuel rest2 (acc ++ [v])
      | ']' :: rest2 => some (acc ++ [v], rest2)
      | _ => none

end

/-- `JSON.parse`: a single JSON value with nothing but whitespace around
it.  The fuel `2 * length + 2` over-approximates the number of recursive
descents, each of which consumes at least one character per two calls. -/
def jsonParse (s : String) : Option JsonValue :=
  match parseValue (2 * s.data.length + 2) s.data with
  | some (v, rest) => if skipJsonWs rest = [] then some v else none
  | none => none

mutual

/-- JS `String(v)` / template-literal conversion of a parsed JSON value:
strings stay as they are, numbers and booleans print, `null` prints as
`"null"`, an array prints as its elements joined by `","` (with `null`
elements contributing the empty string, as `Array.prototype.join` does),
and a plain object prints as `"[object Object]"`. -/
def jsToString : JsonValue → String
  | JsonValue.null => "null"
  | JsonValue.bool b => if b then "true" else "false"
  | JsonValue.num n => toString n
  | JsonValue.str s => s
  | JsonValue.arr elems => String.intercalate "," (jsJoinParts elems)
  | JsonValue.obj _ => "[object Object]"

/-- The per-element strings of `Array.prototype.join`: `null` (and
`undefined`, absent here) become the empty string. -/
def jsJoinParts : List JsonValue → List String
  | [] => []
  | JsonValue.null :: rest => "" :: jsJoinParts rest
  | v :: rest => jsToString v :: jsJoinParts rest

end

/-- JS `Array.prototype.join(sep)`. -/
def jsArrayJoin (sep : String) (elems : List JsonValue) : String :=
  String.intercalate sep (jsJoinParts elems)

/-- JS truthiness of a parsed JSON value (`undefined` is handled by the
callers as the `none` of `getField`). -/
def jsTruthy : JsonValue → Bool
  | JsonValue.null => false
  | JsonValue.bool b => b
  | JsonValue.num n => n ≠ 0
  | JsonValue.str s => s ≠ ""
  | JsonValue.arr _ => true
  | JsonValue.obj _ => true

/-- Last binding of a key in an association list: `JSON.parse` lets a
repeated key overwrite the earlier one. -/
def lookupLast (key : String) : List (String × JsonValue) → Option JsonValue
  | [] => none
  | (k, v) :: rest =>
    match lookupLast key rest with
    | some w => some w
    | none => if k = key then some v else none

/-- JS property access `v.key` for the keys used here: defined bindings on
objects, `undefined` (`none`) on any other non-`null` value.  Access on
`null` throws and is handled separately in `formatInfo`. -/
def getField (v : JsonValue) (key : String) : Option JsonValue :=
  match v with
  | JsonValue.obj fields => lookupLast key fields
  | _ => none

/-- `info.summary || '情報なし'`, already template-converted to a string. -/
def summaryText (info : JsonValue) : String :=
  match getField info "summary" with
  | some v => if jsTruthy v then jsToString v else "情報なし"
  | none => "情報なし"

/-- `info.genre ? info.genre.join(', ') : '情報なし'`: `none` models the
`TypeError` thrown by `.join` when a truthy `genre` is not an array. -/
def genreText (info : JsonValue) : Option String :=
  match getField info "genre" with
  | some v =>
    if jsTruthy v then
      match v with
      | JsonValue.arr elems => some (jsArrayJoin ", " elems)
      | _ => none
    else some "情報なし"
  | none => some "情報なし"

/-- `info.streaming_sites ? info.streaming_sites.map(site => `- ${site}`)
.join('\n') : '情報なし'`, with `none` again modelling the `TypeError` on a
truthy non-array. -/
def sitesText (info : JsonValue) : Option String :=
  match getField info "streaming_sites" with
  | some v =>
    if jsTruthy v then
      match v with
      | JsonValue.arr elems =>
        some (String.intercalate "\n" (elems.map fun site => "- " ++ jsToString site))
      | _ => none
    else some "情報なし"
  | none => some "情報なし"

/-- The rendering of a successfully parsed reply (src/main.js lines
123–130).  The whole block is built inside the same `try` as `JSON.parse`,
so a `TypeError` raised while rendering (property access on `null`, `.join`
or `.map` on a truthy non-array) lands in the same `catch` as a parse
failure; those cases are the `none` result. -/
def formatInfo (mediaTitle : String) (info : JsonValue) : Option String :=
  match info with
  | JsonValue.null => none
  | _ =>
    match genreText info, sitesText info with
    | some g, some s =>
      some ("作品: \x27" ++ mediaTitle ++ "\x27 の情報\n"
        ++ "----------------------------------------\n"
        ++ "【概要】\n" ++ summaryText info ++ "\n\n"
        ++ "【ジャンル】\n" ++ g ++ "\n\n"
        ++ "【主な配信サイト】\n" ++ s ++ "\n"
        ++ "----------------------------------------\n"
        ++ "\n(この情報はGeminiによって生成されました)")
    | _, _ => none

/-- Match a literal character sequence at the head of a list, returning the
remainder on success. -/
def dropLit : List Char → List Char → Option (List Char)
  | [], cs => some cs
  | _ :: _, [] => none
  | p :: ps, c :: cs => if c = p then dropLit ps cs else none

/-- The seven characters of the opening fence the regex looks for:
three backticks followed by `json`. -/
def fenceHead : List Char :=
  [Char.ofNat 96, Char.ofNat 96, Char.ofNat 96, 'j', 's', 'o', 'n']

/-- The three backticks of a closing fence. -/
def fenceTail : List Char :=
  [Char.ofNat 96, Char.ofNat 96, Char.ofNat 96]

/-- The first alternative of the regex of `stripFences`: a leading
` ```json ` tag together with the whitespace run after it — a plain ` ``` `
opening fence is not matched. -/
def stripHeadFence (cs : List Char) : List Char :=
  match dropLit fenceHead cs with
  | some rest => rest.dropWhile isJsWs
  | none => cs

/-- The second alternative of the regex: three backticks anchored at the
very end of the string. -/
def stripTailFence (cs : List Char) : List Char :=
  match dropLit fenceTail cs.reverse with
  | some rest => rest.reverse
  | none => cs

/-- `text.replace(/^```json\s*|```$/g, '').trim()` (src/main.js line 120):
both regex alternatives applied (the regex has no `m` flag, so `^` and `$`
anchor at the ends of the whole string, and the two alternatives touch
disjoint parts of it), then JS `trim`. -/
def stripFences (s : String) : String :=
  String.mk (trimChars (stripTailFence (stripHeadFence s.data)))

/-- `searchMediaWithGemini` (src/main.js lines 113–140): an empty title
short-circuits before the service call; a thrown transport/auth error is
caught and turned into the fixed advisory message; otherwise the reply is
fence-stripped and parsed, a successful parse-and-render returns the
formatted block, and any parse or render failure returns the stripped raw
text behind the fixed notice. -/
def searchMediaWithGemini (mediaTitle : String) (outcome : ServiceOutcome) :
    String :=
  if mediaTitle = "" then "作品名を入力してください。"
  else
    match outcome with
    | ServiceOutcome.failure errMessage =>
      "作品: \x27" ++ mediaTitle ++ "\x27 の情報取得中にエラーが発生しました。\n"
        ++ "APIキーの設定やネットワーク接続を確認してください。\n"
        ++ "(エラー: " ++ errMessage ++ ")"
    | ServiceOutcome.reply rawText =>
      let text := stripFences rawText
      match jsonParse text with
      | some info =>
        match formatInfo mediaTitle info with
        | some block => block
        | none => "Geminiからの応答を解析できませんでした。\n\n---\n" ++ text
      | none => "Geminiからの応答を解析できませんでした。\n\n---\n" ++ text

/-!
Spec-side definitions.  The following render functions are written from the
wording of the specification, not from the code; the theorems below compare
them with the embedded code.
-/

/-- One `listAll` line exactly as the spec sentence states it: the rating
suffix appears "when rating is present", the notes and tags suffixes "when
present and non-blank". -/
def specFormatRow (row : ViewingRecord) : String :=
  let rating_str :=
    match row.rating with
    | some r => " (評価:" ++ toString r ++ ")"
    | none => ""
  let notes_str :=
    match row.notes with
    | some n => if jsTrim n ≠ "" then " [メモ: " ++ n ++ "]" else ""
    | none => ""
  let tags_str :=
    match row.tags with
    | some t => if jsTrim t ≠ "" then " [タグ: " ++ t ++ "]" else ""
    | none => ""
  "・" ++ row.start_date ++ " ~ " ++ row.end_date ++ ": " ++ row.media_title
    ++ rating_str ++ notes_str ++ tags_str

/-- The spec's `listAll` block built from `specFormatRow`: one line per
record, ordered by `recorded_at` descending. -/
def specListAll (store : List ViewingRecord) : String :=
  "--- 視聴履歴一覧 ---\n"
    ++ String.join ((sortDesc store).map fun row => specFormatRow row ++ "\n")

/-- One `listAll` line as the amended claim states it: the rating suffix
appears when the rating is present and non-zero (zero being JS-falsy),
notes and tags as before. -/
def specFormatRowAmended (row : ViewingRecord) : String :=
  let rating_str :=
    match row.rating with
    | some r => if r ≠ 0 then " (評価:" ++ toString r ++ ")" else ""
    | none => ""
  let notes_str :=
    match row.notes with
    | some n => if jsTrim n ≠ "" then " [メモ: " ++ n ++ "]" else ""
    | none => ""
  let tags_str :=
    match row.tags with
    | some t => if jsTrim t ≠ "" then " [タグ: " ++ t ++ "]" else ""
    | none => ""
  "・" ++ row.start_date ++ " ~ " ++ row.end_date ++ ": " ++ row.media_title
    ++ rating_str ++ notes_str ++ tags_str

/-- The amended claim's `listAll` block. -/
def specListAllAmended (store : List ViewingRecord) : String :=
  "--- 視聴履歴一覧 ---\n"
    ++ String.join ((sortDesc store).map fun row => specFormatRowAmended row ++ "\n")

/-- The lookup result block exactly as the spec sentence states it: title,
separator, the summary (or the placeholder when absent), the genre list
joined by commas (or the placeholder when absent), the streaming-site list
as a bulleted list (or the placeholder when absent), and the attribution
line. -/
def specRenderBlock (title : String) (info : JsonValue) : String :=
  let summary :=
    match getField info "summary" with
    | some v => jsToString v
    | none => "情報なし"
  let genre :=
    match getField info "genre" with
    | some (JsonValue.arr elems) => jsArrayJoin ", " elems
    | some v => jsToString v
    | none => "情報なし"
  let sites :=
    match getField info "streaming_sites" with
    | some (JsonValue.arr elems) =>
      String.intercalate "\n" (elems.map fun site => "- " ++ jsToString site)
    | some v => jsToString v
    | none => "情報なし"
  "作品: \x27" ++ title ++ "\x27 の情報\n"
    ++ "----------------------------------------\n"
    ++ "【概要】\n" ++ summary ++ "\n\n"
    ++ "【ジャンル】\n" ++ genre ++ "\n\n"
    ++ "【主な配信サイト】\n" ++ sites ++ "\n"
    ++ "----------------------------------------\n"
    ++ "\n(この情報はGeminiによって生成されました)"

/-- A service reply consisting of the spec's example JSON inside a
` ```json ` fence. -/
def sampleFencedReply : String :=
  "\x60\x60\x60json\n\x7b\"summary\":\"S\",\"genre\":[\"A\",\"B\"],"
    ++ "\"streaming_sites\":[\"Netflix\"]\x7d\n\x60\x60\x60"

/-- The parse of `sampleFencedReply`'s payload. -/
def sampleInfo : JsonValue :=
  JsonValue.obj
    [("summary", JsonValue.str "S"),
     ("genre", JsonValue.arr [JsonValue.str "A", JsonValue.str "B"]),
     ("streaming_sites", JsonValue.arr [JsonValue.str "Netflix"])]

/-- A valid record input used by concrete witnesses. -/
def sampleInput : RecordInput :=
  { mediaTitle := some "T", startDate := some "2024-01-01"
    endDate := some "2024-01-02", rating := none, notes := none, tags := none }

/-- A pre-existing stored row, strictly older than the witness inserts. -/
def sampleOldRow : ViewingRecord :=
  { media_title := "Old", start_date := "a", end_date := "b"
    rating := none, notes := none, recorded_at := 5, tags := none }

/-- A stored row whose rating is present but `0` — JS-falsy. -/
def ratingZeroRow : ViewingRecord :=
  { media_title := "T", start_date := "2024-01-01", end_date := "2024-01-02"
    rating := some 0, notes := none, recorded_at := 1, tags := none }

/-- The spec's example row carrying all three optional fields. -/
def fullSuffixRow : ViewingRecord :=
  { media_title := "T", start_date := "2024-01-01", end_date := "2024-01-02"
    rating := some 8, notes := some "great", recorded_at := 2, tags := some "drama" }

/-- A row with none of the optional fields. -/
def noSuffixRow : ViewingRecord :=
  { media_title := "U", start_date := "2024-02-01", end_date := "2024-02-02"
    rating := none, notes := none, recorded_at := 1, tags := none }

/-!
Helper lemmas.
-/

theorem str_data_append (a b : String) : (a ++ b).data = a.data ++ b.data := by
  cases a
  cases b
  rfl

theorem str_of_data_eq (s : String) : String.mk s.data = s := by
  cases s
  rfl

theorem dropLit_self (pre X : List Char) : dropLit pre (pre ++ X) = some X := by
  induction pre with
  | nil => rfl
  | cons c cs ih => simp [dropLit, ih]

theorem dropWhile_append_of_self {p : Char → Bool} {l : List Char}
    (h : l.dropWhile p = l) (hne : l ≠ []) (t : List Char) :
    (l ++ t).dropWhile p = l ++ t := by
  cases l with
  | nil => exact absurd rfl hne
  | cons c cs =>
    have hc : p c = false := by
      cases hpc : p c with
      | false => rfl
      | true =>
        simp only [List.dropWhile_cons, hpc, if_pos] at h
        have hlen : (cs.dropWhile p).length ≤ cs.length :=
          (List.dropWhile_sublist p).length_le
        rw [h] at hlen
        simp at hlen
    simp [List.cons_append, List.dropWhile_cons, hc]

theorem str_join_cons (s : String) (l : List String) :
    String.join (s :: l) = s ++ String.join l := by
  simp [String.join_eq]
  rfl

/-- A row strictly newer than everything in the store sorts ahead of the
whole store. -/
theorem sortDesc_append_newest (store : List ViewingRecord) (row : ViewingRecord)
    (h : ∀ r ∈ store, r.recorded_at < row.recorded_at) :
    sortDesc (store ++ [row]) = row :: sortDesc store := by
  induction store with
  | nil => rfl
  | cons x xs ih =>
    have hx : x.recorded_at < row.recorded_at := h x (List.mem_cons_self x xs)
    have hxs : ∀ r ∈ xs, r.recorded_at < row.recorded_at :=
      fun r hr => h r (List.mem_cons_of_mem x hr)
    have hne : ¬ recGe x row := Nat.not_le_of_lt hx
    show List.orderedInsert recGe x (sortDesc (xs ++ [row]))
        = row :: sortDesc (x :: xs)
    rw [ih hxs]
    show List.orderedInsert recGe x (row :: sortDesc xs)
        = row :: List.orderedInsert recGe x (sortDesc xs)
    simp [List.orderedInsert, hne]

theorem sortDesc_perm (l : List ViewingRecord) : List.Perm (sortDesc l) l :=
  List.perm_insertionSort recGe l

theorem sortDesc_length (l : List ViewingRecord) :
    (sortDesc l).length = l.length :=
  (sortDesc_perm l).length_eq

theorem sortDesc_sorted (l : List ViewingRecord) :
    List.Pairwise recGe (sortDesc l) :=
  List.sorted_insertionSort recGe l

theorem jsTrim_ne_imp_ne {n : String} (h : jsTrim n ≠ "") : n ≠ "" := by
  intro he
  subst he
  exact h rfl

/-- The guard `notes && notes.trim()` of the code coincides with the
"non-blank" condition of the spec: a string with non-blank trim is itself
non-empty. -/
theorem if_and_nonblank {α : Sort _} (n : String) (a b : α) :
    (if n ≠ "" ∧ jsTrim n ≠ "" then a else b)
      = (if jsTrim n ≠ "" then a else b) := by
  by_cases ht : jsTrim n ≠ ""
  · rw [if_pos ⟨jsTrim_ne_imp_ne ht, ht⟩, if_pos ht]
  · rw [if_neg (fun hc => ht hc.2), if_neg ht]

theorem formatRow_eq_amended (row : ViewingRecord) :
    formatRow row = specFormatRowAmended row := by
  obtain ⟨mt, sd, ed, rat, nts, rec, tgs⟩ := row
  cases rat with
  | none =>
    cases nts <;> cases tgs <;>
      simp [formatRow, specFormatRowAmended, if_and_nonblank, jsIntTruthy]
  | some r =>
    cases nts <;> cases tgs <;> by_cases hr : r = 0 <;>
      simp [formatRow, specFormatRowAmended, if_and_nonblank, jsIntTruthy, hr]

theorem linesOf_eq_amended_join (l : List ViewingRecord) :
    linesOf l
      = String.join (l.map fun row => specFormatRowAmended row ++ "\n") := by
  induction l with
  | nil => rfl
  | cons r rest ih =>
    show (formatRow r ++ "\n") ++ linesOf rest = _
    rw [List.map_cons, str_join_cons, ih, formatRow_eq_amended]

/-!
The claims.
-/

/-- C1: any input whose mediaTitle, startDate or endDate is missing or the
empty string makes `record` return the structured `{success:false, message}`
value — no fault is thrown — and the store is unchanged. -/
theorem record_missing_field_rejected (data : RecordInput) (now : Nat)
    (store : List ViewingRecord)
    (h : jsStrTruthy data.mediaTitle = false
      ∨ jsStrTruthy data.startDate = false
      ∨ jsStrTruthy data.endDate = false) :
    recordViewingHistory data now store
      = ({ success := false
           message := "エラー: 作品名、開始日、終了日は必須項目です。" }, store) := by
  unfold recordViewingHistory
  rcases h with h | h | h <;> simp [h]

theorem record_missing_field_rejected_witness :
    jsStrTruthy (none : Option String) = false ∧
    recordViewingHistory
      { mediaTitle := none, startDate := some "2024-01-01"
        endDate := some "2024-01-02", rating := none, notes := none, tags := none }
      5 []
      = ({ success := false
           message := "エラー: 作品名、開始日、終了日は必須項目です。" }, []) :=
  ⟨rfl, record_missing_field_rejected _ 5 [] (Or.inl rfl)⟩

/-- C2: on valid input `record` succeeds with a message quoting the stored
title, appends exactly one row carrying the clock value as `recorded_at`
(the caller supplies no timestamp), and in the next `listAll` the new row
is visible and sorts ahead of every strictly older row. -/
theorem record_valid_visible_sorted_first (data : RecordInput) (now : Nat)
    (store : List ViewingRecord)
    (ht : jsStrTruthy data.mediaTitle = true)
    (hs : jsStrTruthy data.startDate = true)
    (he : jsStrTruthy data.endDate = true)
    (hnew : ∀ r ∈ store, r.recorded_at < now) :
    (recordViewingHistory data now store).1.success = true ∧
    (recordViewingHistory data now store).1.message
      = "視聴履歴を記録しました: \x27" ++ data.mediaTitle.getD "" ++ "\x27" ∧
    (recordViewingHistory data now store).2 = store ++ [insertedRow data now] ∧
    (insertedRow data now).recorded_at = now ∧
    sortDesc (recordViewingHistory data now store).2
      = insertedRow data now :: sortDesc store ∧
    getAllViewingHistory (recordViewingHistory data now store).2
      = "--- 視聴履歴一覧 ---\n"
        ++ (formatRow (insertedRow data now) ++ "\n")
        ++ linesOf (sortDesc store) := by
  have hrec : recordViewingHistory data now store
      = ({ success := true
           message := "視聴履歴を記録しました: \x27"
             ++ data.mediaTitle.getD "" ++ "\x27" },
         store ++ [insertedRow data now]) := by
    unfold recordViewingHistory
    simp [ht, hs, he]
  have hsort : sortDesc (store ++ [insertedRow data now])
      = insertedRow data now :: sortDesc store :=
    sortDesc_append_newest store _ hnew
  refine ⟨by rw [hrec], by rw [hrec], by rw [hrec], rfl,
    by rw [hrec]; exact hsort, ?_⟩
  rw [hrec]
  show getAllViewingHistory (store ++ [insertedRow data now]) = _
  unfold getAllViewingHistory
  rw [hsort]
  simp [linesOf, String.append_assoc]

theorem record_valid_visible_sorted_first_witness :
    jsStrTruthy sampleInput.mediaTitle = true ∧
    jsStrTruthy sampleInput.startDate = true ∧
    jsStrTruthy sampleInput.endDate = true ∧
    (∀ r ∈ [sampleOldRow], r.recorded_at < 10) ∧
    getAllViewingHistory (recordViewingHistory sampleInput 10 [sampleOldRow]).2
      = "--- 視聴履歴一覧 ---\n"
        ++ (formatRow (insertedRow sampleInput 10) ++ "\n")
        ++ linesOf (sortDesc [sampleOldRow]) :=
  ⟨rfl, rfl, rfl, by decide,
   (record_valid_visible_sorted_first sampleInput 10 [sampleOldRow]
      rfl rfl rfl (by decide)).2.2.2.2.2⟩

/-- C3 counterexample: on a stored record whose rating is present but `0`
(a JS-falsy value), the code omits the rating suffix while the spec's
rendering, which keys only on presence, includes ` (評価:0)`. -/
theorem listAll_spec_rating_zero_cex :
    getAllViewingHistory [ratingZeroRow] ≠ specListAll [ratingZeroRow] := by
  decide

/-- C3 amended: for every non-empty store, `listAll` renders the block with
the rating suffix exactly when the rating is present and non-zero, and the
notes and tags suffixes when present and non-blank, in that order; the rows
appear one line per record (the rendered rows are a permutation of the
store) in descending `recorded_at` order. -/
theorem listAll_matches_amended_rendering (store : List ViewingRecord)
    (h : store ≠ []) :
    getAllViewingHistory store = specListAllAmended store ∧
    List.Perm (sortDesc store) store ∧
    List.Pairwise recGe (sortDesc store) := by
  refine ⟨?_, sortDesc_perm store, sortDesc_sorted store⟩
  have hlen : ¬ (sortDesc store).length = 0 := by
    rw [sortDesc_length]
    exact fun hc => h (List.length_eq_zero.mp hc)
  unfold getAllViewingHistory specListAllAmended
  rw [if_neg hlen, linesOf_eq_amended_join]

theorem listAll_matches_amended_rendering_witness :
    [fullSuffixRow, noSuffixRow] ≠ ([] : List ViewingRecord) ∧
    (getAllViewingHistory [fullSuffixRow, noSuffixRow]
        = specListAllAmended [fullSuffixRow, noSuffixRow] ∧
      List.Perm (sortDesc [fullSuffixRow, noSuffixRow])
        [fullSuffixRow, noSuffixRow] ∧
      List.Pairwise recGe (sortDesc [fullSuffixRow, noSuffixRow])) :=
  ⟨by decide,
   listAll_matches_amended_rendering [fullSuffixRow, noSuffixRow] (by decide)⟩

/-- C4: `listAll` on the empty store returns exactly the fixed no-history
message, not an empty or formatted block. -/
theorem listAll_empty_fixed_message :
    getAllViewingHistory [] = "まだ視聴履歴がありません。" := rfl

/-- C5 counterexample: the reply `null` parses as JSON, but rendering it
throws (`info.summary` on `null`), so the code returns the unparseable
notice instead of the spec's formatted block. -/
theorem lookup_null_json_cex :
    jsonParse (stripFences "null") = some JsonValue.null ∧
    searchMediaWithGemini "Show X" (ServiceOutcome.reply "null")
      = "Geminiからの応答を解析できませんでした。\n\n---\nnull" ∧
    searchMediaWithGemini "Show X" (ServiceOutcome.reply "null")
      ≠ specRenderBlock "Show X" JsonValue.null :=
  ⟨rfl, rfl, by decide⟩

/-- C5 amended: whenever the fence-stripped reply parses to a non-null JSON
value whose truthy `genre` and `streaming_sites` fields are arrays (so the
rendering step cannot throw), `lookup` returns the fixed block: title,
separator, the summary when truthy or the placeholder, the comma-joined
genre list or the placeholder, the bulleted site list or the placeholder,
and the attribution line. -/
theorem lookup_parsed_json_renders_block (title raw : String)
    (info : JsonValue) (gs ss : String)
    (ht : title ≠ "")
    (hp : jsonParse (stripFences raw) = some info)
    (hnull : info ≠ JsonValue.null)
    (hg : genreText info = some gs)
    (hss : sitesText info = some ss) :
    searchMediaWithGemini title (ServiceOutcome.reply raw)
      = "作品: \x27" ++ title ++ "\x27 の情報\n"
        ++ "----------------------------------------\n"
        ++ "【概要】\n" ++ summaryText info ++ "\n\n"
        ++ "【ジャンル】\n" ++ gs ++ "\n\n"
        ++ "【主な配信サイト】\n" ++ ss ++ "\n"
        ++ "----------------------------------------\n"
        ++ "\n(この情報はGeminiによって生成されました)" := by
  have hfi : formatInfo title info
      = some ("作品: \x27" ++ title ++ "\x27 の情報\n"
        ++ "----------------------------------------\n"
        ++ "【概要】\n" ++ summaryText info ++ "\n\n"
        ++ "【ジャンル】\n" ++ gs ++ "\n\n"
        ++ "【主な配信サイト】\n" ++ ss ++ "\n"
        ++ "----------------------------------------\n"
        ++ "\n(この情報はGeminiによって生成されました)") := by
    cases info with
    | null => exact absurd rfl hnull
    | bool b => simp [formatInfo, hg, hss]
    | num n => simp [formatInfo, hg, hss]
    | str s => simp [formatInfo, hg, hss]
    | arr elems => simp [formatInfo, hg, hss]
    | obj fields => simp [formatInfo, hg, hss]
  simp [searchMediaWithGemini, ht, hp, hfi]

theorem lookup_parsed_json_renders_block_witness :
    ("Show X" : String) ≠ "" ∧
    jsonParse (stripFences sampleFencedReply) = some sampleInfo ∧
    sampleInfo ≠ JsonValue.null ∧
    genreText sampleInfo = some "A, B" ∧
    sitesText sampleInfo = some "- Netflix" ∧
    searchMediaWithGemini "Show X" (ServiceOutcome.reply sampleFencedReply)
      = "作品: \x27Show X\x27 の情報\n"
        ++ "----------------------------------------\n"
        ++ "【概要】\n" ++ summaryText sampleInfo ++ "\n\n"
        ++ "【ジャンル】\nA, B\n\n"
        ++ "【主な配信サイト】\n- Netflix\n"
        ++ "----------------------------------------\n"
        ++ "\n(この情報はGeminiによって生成されました)" :=
  ⟨by decide, rfl, fun hc => JsonValue.noConfusion hc, rfl, rfl,
   lookup_parsed_json_renders_block "Show X" sampleFencedReply sampleInfo
     "A, B" "- Netflix" (by decide) rfl (fun hc => JsonValue.noConfusion hc) rfl rfl⟩

/-- C6 counterexample: a reply whose fences are plain ` ``` ` (no `json`
tag) holds valid JSON, yet the stripped text keeps the opening fence and
fails to parse. -/
theorem lookup_plain_fence_cex :
    jsonParse "\x7b\"a\":1\x7d" = some (JsonValue.obj [("a", JsonValue.num 1)]) ∧
    stripFences "\x60\x60\x60\n\x7b\"a\":1\x7d\n\x60\x60\x60"
      = "\x60\x60\x60\n\x7b\"a\":1\x7d" ∧
    jsonParse (stripFences "\x60\x60\x60\n\x7b\"a\":1\x7d\n\x60\x60\x60") = none :=
  ⟨rfl, rfl, rfl⟩

/-- C6 amended: fence markup is stripped only in the exact shape the regex
targets — an opening ` ```json ` tag (with trailing whitespace) at the very
start and/or three backticks at the very end; a reply of that shape around a
JSON payload is stripped back to the payload, which then parses. -/
theorem lookup_json_fence_stripped (j : String) (v : JsonValue)
    (hparse : jsonParse j = some v)
    (hne : j ≠ "")
    (hlead : j.data.dropWhile isJsWs = j.data)
    (htrim : trimChars j.data = j.data) :
    stripFences ("\x60\x60\x60json\n" ++ j ++ "\x60\x60\x60") = j ∧
    jsonParse (stripFences ("\x60\x60\x60json\n" ++ j ++ "\x60\x60\x60"))
      = some v := by
  have hdne : j.data ≠ [] := by
    intro h0
    apply hne
    cases j
    cases h0
    rfl
  have hstrip : stripFences ("\x60\x60\x60json\n" ++ j ++ "\x60\x60\x60") = j := by
    have hdata : ("\x60\x60\x60json\n" ++ j ++ "\x60\x60\x60").data
        = fenceHead ++ ('\n' :: (j.data ++ fenceTail)) := by
      rw [str_data_append, str_data_append]
      rw [show ("\x60\x60\x60json\n" : String).data = fenceHead ++ ['\n'] from rfl,
          show ("\x60\x60\x60" : String).data = fenceTail from rfl]
      simp
    have hhead : stripHeadFence (("\x60\x60\x60json\n" ++ j ++ "\x60\x60\x60").data)
        = j.data ++ fenceTail := by
      rw [hdata]
      unfold stripHeadFence
      rw [dropLit_self]
      show List.dropWhile isJsWs ('\n' :: (j.data ++ fenceTail)) = _
      rw [List.dropWhile_cons]
      simp only [show isJsWs '\n' = true from rfl, if_pos]
      exact dropWhile_append_of_self hlead hdne fenceTail
    have htail : stripTailFence (j.data ++ fenceTail) = j.data := by
      unfold stripTailFence
      rw [List.reverse_append]
      rw [show fenceTail.reverse = fenceTail from rfl]
      rw [dropLit_self]
      simp
    unfold stripFences
    rw [hhead, htail, htrim, str_of_data_eq]
  exact ⟨hstrip, by rw [hstrip]; exact hparse⟩

theorem lookup_json_fence_stripped_witness :
    jsonParse "\x7b\"a\":1\x7d" = some (JsonValue.obj [("a", JsonValue.num 1)]) ∧
    ("\x7b\"a\":1\x7d" : String) ≠ "" ∧
    ("\x7b\"a\":1\x7d" : String).data.dropWhile isJsWs
      = ("\x7b\"a\":1\x7d" : String).data ∧
    trimChars ("\x7b\"a\":1\x7d" : String).data = ("\x7b\"a\":1\x7d" : String).data ∧
    stripFences ("\x60\x60\x60json\n" ++ "\x7b\"a\":1\x7d" ++ "\x60\x60\x60")
      = "\x7b\"a\":1\x7d" ∧
    jsonParse (stripFences ("\x60\x60\x60json\n" ++ "\x7b\"a\":1\x7d" ++ "\x60\x60\x60"))
      = some (JsonValue.obj [("a", JsonValue.num 1)]) := by
  refine ⟨rfl, by decide, rfl, rfl, ?_, ?_⟩
  · exact (lookup_json_fence_stripped "\x7b\"a\":1\x7d"
      (JsonValue.obj [("a", JsonValue.num 1)]) rfl (by decide) rfl rfl).1
  · exact (lookup_json_fence_stripped "\x7b\"a\":1\x7d"
      (JsonValue.obj [("a", JsonValue.num 1)]) rfl (by decide) rfl rfl).2

/-- C7: when the fence-stripped reply does not parse as JSON the operation
still succeeds, returning the stripped raw text behind the fixed notice. -/
theorem lookup_unparseable_returns_raw (title raw : String) (ht : title ≠ "")
    (hp : jsonParse (stripFences raw) = none) :
    searchMediaWithGemini title (ServiceOutcome.reply raw)
      = "Geminiからの応答を解析できませんでした。\n\n---\n" ++ stripFences raw := by
  simp [searchMediaWithGemini, ht, hp]

theorem lookup_unparseable_returns_raw_witness :
    ("Show X" : String) ≠ "" ∧
    jsonParse (stripFences "I am not JSON") = none ∧
    searchMediaWithGemini "Show X" (ServiceOutcome.reply "I am not JSON")
      = "Geminiからの応答を解析できませんでした。\n\n---\n"
        ++ stripFences "I am not JSON" :=
  ⟨by decide, rfl,
   lookup_unparseable_returns_raw "Show X" "I am not JSON" (by decide) rfl⟩

/-- C8: a thrown transport/auth/quota error is caught and converted into
the fixed advisory message naming the requested title; the total function
returns it as an ordinary value. -/
theorem lookup_transport_failure_message (title errMessage : String)
    (ht : title ≠ "") :
    searchMediaWithGemini title (ServiceOutcome.failure errMessage)
      = "作品: \x27" ++ title ++ "\x27 の情報取得中にエラーが発生しました。\n"
        ++ "APIキーの設定やネットワーク接続を確認してください。\n"
        ++ "(エラー: " ++ errMessage ++ ")" := by
  unfold searchMediaWithGemini
  rw [if_neg ht]

theorem lookup_transport_failure_message_witness :
    ("Show X" : String) ≠ "" ∧
    searchMediaWithGemini "Show X" (ServiceOutcome.failure "fetch failed")
      = "作品: \x27Show X\x27 の情報取得中にエラーが発生しました。\n"
        ++ "APIキーの設定やネットワーク接続を確認してください。\n"
        ++ "(エラー: fetch failed)" :=
  ⟨by decide, lookup_transport_failure_message "Show X" "fetch failed" (by decide)⟩

/-- C9: an empty title short-circuits to the fixed prompt regardless of the
service outcome — the result does not depend on the external call at all. -/
theorem lookup_empty_title_prompt (outcome : ServiceOutcome) :
    searchMediaWithGemini "" outcome = "作品名を入力してください。" := rfl

/-- C10: validation is pure truthiness — any three non-empty strings pass,
whitespace-only ones included, and all six fields are stored verbatim with
no trimming or sanitization. -/
theorem record_truthiness_only_verbatim (data : RecordInput) (now : Nat)
    (store : List ViewingRecord)
    (ht : jsStrTruthy data.mediaTitle = true)
    (hs : jsStrTruthy data.startDate = true)
    (he : jsStrTruthy data.endDate = true) :
    recordViewingHistory data now store
      = ({ success := true
           message := "視聴履歴を記録しました: \x27"
             ++ data.mediaTitle.getD "" ++ "\x27" },
         store ++ [{ media_title := data.mediaTitle.getD ""
                     start_date := data.startDate.getD ""
                     end_date := data.endDate.getD ""
                     rating := data.rating
                     notes := data.notes
                     recorded_at := now
                     tags := data.tags }]) := by
  unfold recordViewingHistory insertedRow
  simp [ht, hs, he]

theorem record_truthiness_only_verbatim_witness :
    jsStrTruthy (some " ") = true ∧ jsStrTruthy (some "\t") = true ∧
    jsStrTruthy (some "  ") = true ∧
    recordViewingHistory
      { mediaTitle := some " ", startDate := some "\t", endDate := some "  "
        rating := none, notes := some "  ", tags := none } 7 []
      = ({ success := true, message := "視聴履歴を記録しました: \x27 \x27" },
         [{ media_title := " ", start_date := "\t", end_date := "  "
            rating := none, notes := some "  ", recorded_at := 7, tags := none }]) :=
  ⟨rfl, rfl, rfl, record_truthiness_only_verbatim _ 7 [] rfl rfl rfl⟩
